import Mathlib

/-!
Shallow embedding of the timed-FSM runtime core of this repository
(src/src/core: automaton.cpp, transition.cpp, scheduler.hpp, variable.hpp,
script_engine.cpp, persistence.hpp, persistence_bridge.cpp) together with
theorems settling the specification claims about it.

Modelling conventions:
  * C++ `std::chrono` instants and durations are modelled as `Int`
    (milliseconds); every call of `Clock::now()` inside an operation is
    modelled by an explicit `now` parameter of that operation.
  * The C++ `double` type is abstracted as a type parameter `D` together
    with a `DoubleModel D` record providing exactly the operations the
    embedded code performs on doubles (`static_cast<int>`, JS `String(.)`,
    JS truthiness).  No claim depends on floating-point arithmetic.
  * `std::unordered_map` is modelled as an association list with unique
    keys; `operator[]`-style assignment is `updAssoc`; all maps built by
    the code have unique keys, so first-match lookup is faithful.
  * Compiled JS guard functions and state entry actions are opaque
    callbacks in C++; they are modelled as Lean functions stored in the
    respective structures.  A guard evaluation either yields a boolean or
    throws (`Except String Bool`); a thrown JS error is re-thrown by
    `Transition::isTriggered` as a C++ exception, modelled as `.error`.
  * `uint64_t m_seq` is modelled as `Nat`; no claim involves wrap-around.
-/

namespace CoreFsm

/-- Abstraction of the C++ `double`: the only operations the embedded code
performs on a double are `static_cast<int>` (delay computation and
`pullBack`), conversion to a JS string (`String(x)` / `toString`), and the
JS truthiness test. -/
structure DoubleModel (D : Type) where
  toInt : D → Int
  toStr : D → String
  truthy : D → Bool

/-- The variant `core_fsm::Value = std::variant<int, double, std::string, bool>`
(variable.hpp). -/
inductive Value (D : Type) where
  | int (i : Int)
  | dbl (d : D)
  | str (s : String)
  | bool (b : Bool)
deriving DecidableEq

/-- The enum `Variable::Type { Int, Double, String, Bool }` (variable.hpp). -/
inductive VarType where
  | int
  | double
  | string
  | bool
deriving DecidableEq

/-- The class `core_fsm::Variable`: name, declared type, current value
(variable.hpp / variable.cpp).  `set` overwrites the value without any
type check. -/
structure Variable (D : Type) where
  name : String
  type : VarType
  value : Value D
deriving DecidableEq

/-- Update (or insert) the entry for key `k` in an association list,
modelling `std::unordered_map::operator[] = v`. -/
def updAssoc {α : Type} : List (String × α) → String → α → List (String × α)
  | [], k, v => [(k, v)]
  | (k', v') :: r, k, v =>
    if k' = k then (k', v) :: r else (k', v') :: updAssoc r k v

/-! ## JS value model

QJSEngine values, as far as the embedded helper scripts observe them:
`undefined`, numbers (of `int` or `double` origin), strings and booleans. -/

/-- A JS value as produced by the context-binding code. -/
inductive JSVal (D : Type) where
  | undefined
  | num (n : Int)
  | dnum (d : D)
  | str (s : String)
  | bool (b : Bool)
deriving DecidableEq

/-- JS `String(v)` on the values that occur in the bound contexts. -/
def jsToString {D : Type} (dm : DoubleModel D) : JSVal D → String
  | .undefined => "undefined"
  | .num n => toString n
  | .dnum d => dm.toStr d
  | .str s => s
  | .bool b => if b then "true" else "false"

/-- JS ToBoolean, as used by the `||` operator. -/
def jsTruthy {D : Type} (dm : DoubleModel D) : JSVal D → Bool
  | .undefined => false
  | .num n => n != 0
  | .dnum d => dm.truthy d
  | .str s => s != ""
  | .bool b => b

/-- How `transition.cpp` (`Transition::isTriggered`) populates `ctx.vars`:
`std::visit` with `constexpr` branches for `int`, `double` and
`std::string` only — a `bool`-valued variable falls through every branch
and the property is set to a default-constructed (undefined) `QJSValue`. -/
def jsOfValueGuard {D : Type} : Value D → JSVal D
  | .int i => .num i
  | .dbl d => .dnum d
  | .str s => .str s
  | .bool _ => .undefined

/-- How `script_engine.cpp` (`bindCtx`) populates `ctx.vars`: `int`,
`double` and `bool` map to the corresponding JS values, everything else to
a JS string. -/
def jsOfValueBind {D : Type} : Value D → JSVal D
  | .int i => .num i
  | .dbl d => .dnum d
  | .str s => .str s
  | .bool b => .bool b

/-- The helper `valueof(name)` installed by the guard engine in
`transition.cpp`:

  if inputs has own property name, return `String(ctx.inputs[name])`;
  if vars has own property name, return `String(ctx.vars[name])`;
  otherwise return the empty string.

`ctx.inputs` holds the last-seen input strings, `ctx.vars` the variable
values bound by `jsOfValueGuard`. -/
def valueofGuardEngine {D : Type} (dm : DoubleModel D)
    (inputs : List (String × String)) (vars : List (String × Value D))
    (n : String) : String :=
  match inputs.lookup n with
  | some s => jsToString dm (.str s)
  | none =>
    match vars.lookup n with
    | some v => jsToString dm (jsOfValueGuard v)
    | none => ""

/-- The helper `valueof(n)` installed by `bindCtx` in `script_engine.cpp`:

  `function valueof(n) { return ctx.inputs[n] || ctx.vars[n] || ""; }`

JS `a || b` returns `a` when `a` is truthy, otherwise `b`; an absent
property reads as `undefined` (falsy).  The variable map is bound by
`jsOfValueBind` from the `Variable` values. -/
def valueofBindCtx {D : Type} (dm : DoubleModel D)
    (inputs : List (String × String)) (vars : List (String × Variable D))
    (n : String) : JSVal D :=
  let a : JSVal D :=
    match inputs.lookup n with
    | some s => .str s
    | none => .undefined
  if jsTruthy dm a then a
  else
    let b : JSVal D :=
      match vars.lookup n with
      | some v => jsOfValueBind v.value
      | none => .undefined
    if jsTruthy dm b then b else .str ""

/-! ## Delay scheduler (scheduler.hpp)

The `std::priority_queue` of `Timer` records is represented by its list
of elements in priority order (non-decreasing `at`); `schedPush` inserts
preserving that order, so popping the head is popping the top of the
heap.  Which of several equal-`at` timers is on top is unspecified in the
C++ heap; the sorted-list representation fixes one admissible order. -/

/-- `Scheduler::Timer`: expiration instant and transition index. -/
structure Timer where
  due : Int
  transitionIndex : Nat
deriving DecidableEq

/-- Push a timer into the priority queue (represented in priority order). -/
def schedPush (t : Timer) : List Timer → List Timer
  | [] => [t]
  | u :: h => if t.due ≤ u.due then t :: u :: h else u :: schedPush t h

/-- `Scheduler::arm(transitionIndex, delay)`: push a timer due at
`now + delay`. -/
def schedArm (h : List Timer) (now : Int) (transitionIndex : Nat)
    (delayMs : Int) : List Timer :=
  schedPush ⟨now + delayMs, transitionIndex⟩ h

/-- `Scheduler::nextTimeout()`: remaining time to the earliest timer,
clamped at zero; `none` when the heap is empty. -/
def schedNextTimeout (h : List Timer) (now : Int) : Option Int :=
  match h with
  | [] => none
  | t :: _ => some (if t.due - now < 0 then 0 else t.due - now)

/-- `Scheduler::popExpired(now)`: pop every timer with `due ≤ now` (in
priority order) and return the popped transition indices together with
the remaining heap. -/
def schedPopExpired : List Timer → Int → List Nat × List Timer
  | [], _ => ([], [])
  | t :: h, now =>
    if t.due ≤ now then
      let (e, r) := schedPopExpired h now
      (t.transitionIndex :: e, r)
    else ([], t :: h)

/-- `Scheduler::purgeForState(activeState, getSrc)`: pop every timer,
keep (in pop order) those whose transition's source state equals
`activeState`, then push the kept timers back. -/
def purgeForState (h : List Timer) (activeState : Nat)
    (getSrc : Nat → Nat) : List Timer :=
  (h.filter fun t => getSrc t.transitionIndex == activeState).foldl
    (fun acc t => schedPush t acc) []

theorem schedPush_perm (t : Timer) (h : List Timer) :
    List.Perm (schedPush t h) (t :: h) := by
  induction h with
  | nil => simp [schedPush]
  | cons u h ih =>
    by_cases hle : t.due ≤ u.due
    · simp [schedPush, hle]
    · simp only [schedPush, hle, if_neg, ite_false]
      exact (ih.cons u).trans (List.Perm.swap t u h)

theorem foldl_schedPush_perm (l acc : List Timer) :
    List.Perm (l.foldl (fun acc t => schedPush t acc) acc) (acc ++ l) := by
  induction l generalizing acc with
  | nil => simp
  | cons t l ih =>
    simp only [List.foldl_cons]
    refine (ih (schedPush t acc)).trans ?_
    exact ((schedPush_perm t acc).append_right l).trans List.perm_middle.symm


/-! ## Transitions and guards (transition.hpp / transition.cpp) -/

/-- `core_fsm::GuardCtx`: current variable values and last-seen inputs
(transition.hpp). -/
structure GuardCtx (D : Type) where
  vars : List (String × Value D)
  inputs : List (String × String)

/-- `core_fsm::Transition`.  `guard` models the compiled `guardFn_`
(`none` when the guard expression was empty, so `isCallable()` is false);
calling it models binding the context, invoking the JS function and
converting the result with `toBool()`, where `.error` models a JS error
result, which `isTriggered` turns into a thrown C++ exception.
`delayMs` is `m_delay` (0 unless the fixed-delay constructor set it);
`delayVarName` is `m_delayVarName` ("" unless the variable-delay
constructor set it). -/
structure Transition (D : Type) where
  inputName : String
  guard : Option (GuardCtx D → Except String Bool)
  delayMs : Int := 0
  delayVarName : String := ""
  src : Nat
  dst : Nat

instance {D : Type} : Inhabited (Transition D) :=
  ⟨{ inputName := "", guard := none, src := 0, dst := 0 }⟩

/-- `Transition::isDelayed()`: `m_delay.count() > 0`. -/
def Transition.isDelayed {D : Type} (t : Transition D) : Bool :=
  t.delayMs > 0

/-- `Transition::hasVariableDelay()`: `!m_delayVarName.empty()`. -/
def Transition.hasVariableDelay {D : Type} (t : Transition D) : Bool :=
  t.delayVarName != ""

/-- `Transition::isTriggered(incomingInput, ctx)` (transition.cpp):
mismatching input name gives false; no guard gives true; otherwise the
compiled guard is evaluated, and a JS error is re-thrown as a C++
`std::runtime_error` (modelled by `.error`). -/
def Transition.isTriggered {D : Type} (t : Transition D)
    (incomingInput : String) (ctx : GuardCtx D) : Except String Bool :=
  if incomingInput ≠ t.inputName then .ok false
  else
    match t.guard with
    | none => .ok true
    | some g => g ctx

/-! ## States, context, automaton (state.hpp, context.hpp, automaton.hpp) -/

/-- `core_fsm::Context` (context.hpp): views of the automaton's variable,
input and output maps plus the state-entry instant. -/
structure Context (D : Type) where
  vars : List (String × Variable D)
  inputs : List (String × String)
  outputs : List (String × String)
  stateSince : Int

/-- `core_fsm::State` (state.hpp): name and optional entry action.  The
action is the opaque closure built by the driver (bind context, run the
compiled JS action, pull mutated variables and outputs back); it is
modelled as a function from the context to the new variable and output
maps. -/
structure StateDef (D : Type) where
  name : String
  onEnter : Option (Context D → List (String × Variable D) × List (String × String))

instance {D : Type} : Inhabited (StateDef D) := ⟨{ name := "", onEnter := none }⟩

/-- `State::onEnter(ctx)`: invoke the action if present (state.cpp). -/
def StateDef.enter {D : Type} (s : StateDef D) (ctx : Context D) :
    List (String × Variable D) × List (String × String) :=
  match s.onEnter with
  | none => (ctx.vars, ctx.outputs)
  | some f => f ctx

/-- `Automaton::EventLog` (automaton.hpp). -/
structure EventLog where
  timestamp : Int
  state : String
  triggerInput : String
  triggerValue : String
deriving DecidableEq

/-- The JSON snapshot built by `Automaton::broadcastSnapshot`
(automaton.cpp): sequence number, timestamp, active-state name and the
three maps. -/
structure Snapshot (D : Type) where
  seq : Nat
  ts : Int
  state : String
  inputs : List (String × String)
  vars : List (String × Value D)
  outputs : List (String × String)
deriving DecidableEq

/-- The state owned by `core_fsm::Automaton` (automaton.hpp), as touched
by the executor: states, transitions, active index, variable/input/output
maps, the scheduler heap, the event log, the snapshot sequence counter,
the state-entry instant and whether a channel is attached.  The incoming
queue, mutex and stop flag are modelled by the iteration schedule of
`runModel`; the snapshot hook is an external callback with no effect on
this state. -/
structure Automaton (D : Type) where
  states : List (StateDef D)
  transitions : List (Transition D)
  active : Nat
  vars : List (String × Variable D)
  inputs : List (String × String)
  outputs : List (String × String)
  timers : List Timer
  log : List EventLog
  seq : Nat
  stateSince : Int
  channel : Bool

/-- The anonymous-namespace helper `makeVarSnapshot` (automaton.cpp):
name-to-value map extracted from the variable map. -/
def makeVarSnapshot {D : Type} (vars : List (String × Variable D)) :
    List (String × Value D) :=
  vars.map fun kv => (kv.1, kv.2.value)

/-- `Automaton::broadcastSnapshot` (automaton.cpp): without a channel it
does nothing (and does not touch `m_seq`); with a channel it increments
`m_seq` and sends a snapshot carrying the incremented value, the current
state name and the three maps.  `ts` is the wall-clock timestamp taken
inside the function. -/
def broadcastSnapshot {D : Type} (a : Automaton D) (ts : Int) :
    Automaton D × Option (Snapshot D) :=
  if a.channel then
    ({ a with seq := a.seq + 1 },
     some { seq := a.seq + 1
            ts := ts
            state := (a.states.getD a.active default).name
            inputs := a.inputs
            vars := makeVarSnapshot a.vars
            outputs := a.outputs })
  else (a, none)

/-- `Automaton::fireTransition(idx, trigger)` (automaton.cpp).  A stale
transition (source differs from the active state) is a no-op returning
false.  Otherwise: switch to the destination, append an event-log entry,
purge the scheduler for the new state, reset the entry instant when the
state actually changed, run the new state's entry action on a context
over the live maps, clear the inputs, return true.  `now` models the
`Clock::now()` calls performed during the firing.  An out-of-range index
is undefined behaviour in C++ and never exercised here. -/
def fireTransition {D : Type} (a : Automaton D) (now : Int) (idx : Nat)
    (trigger : String) : Bool × Automaton D :=
  match a.transitions[idx]? with
  | none => (false, a)
  | some t =>
    if t.src ≠ a.active then (false, a)
    else
      let old := a.active
      let active' := t.dst
      let log' := a.log ++
        [{ timestamp := now
           state := (a.states.getD active' default).name
           triggerInput := trigger
           triggerValue := "" }]
      let timers' := purgeForState a.timers active'
        (fun i => (a.transitions.getD i default).src)
      let since' := if active' ≠ old then now else a.stateSince
      let ctx : Context D := { vars := a.vars, inputs := a.inputs,
                               outputs := a.outputs, stateSince := since' }
      let acted := (a.states.getD active' default).enter ctx
      (true,
       { a with active := active', log := log', timers := timers',
                stateSince := since', vars := acted.1, outputs := acted.2,
                inputs := [] })

/-- `Automaton::setVariable(name, valueStr)` (automaton.cpp): an unknown
name is silently ignored; otherwise the string is parsed per the declared
type — `Int` via `std::stoi`, `Double` via `std::stod`, every other type
(`String` and, through the `default:` label, `Bool`) stores the raw
string; a parse failure (the `catch`) also stores the raw string.
`stoi`/`stod` are the C++ standard parses, passed in as parameters with
`none` modelling a thrown parse error. -/
def setVarMap {D : Type} (stoi : String → Option Int)
    (stod : String → Option D) :
    List (String × Variable D) → String → String → List (String × Variable D)
  | [], _, _ => []
  | (k, var) :: r, name, valueStr =>
    if k = name then
      let value' : Value D :=
        match var.type with
        | .int =>
          match stoi valueStr with
          | some n => .int n
          | none => .str valueStr
        | .double =>
          match stod valueStr with
          | some d => .dbl d
          | none => .str valueStr
        | _ => .str valueStr
      (k, { var with value := value' }) :: r
    else (k, var) :: setVarMap stoi stod r name valueStr

/-- `Automaton::setVariable` lifted to the automaton state. -/
def Automaton.setVariable {D : Type} (stoi : String → Option Int)
    (stod : String → Option D) (a : Automaton D) (name valueStr : String) :
    Automaton D :=
  { a with vars := setVarMap stoi stod a.vars name valueStr }

/-- The delay computed by `Automaton::processImmediateTransitions` for a
triggered transition (automaton.cpp): start from 1 ms; a variable delay
reads the named variable (`int` directly, `double` via
`static_cast<int>`, any other type or a missing variable leaves 1 ms);
otherwise a positive fixed delay (`isDelayed`) is used. -/
def armDelay {D : Type} (dm : DoubleModel D)
    (vars : List (String × Variable D)) (t : Transition D) : Int :=
  if t.hasVariableDelay then
    match vars.lookup t.delayVarName with
    | some v =>
      match v.value with
      | .int iv => iv
      | .dbl dv => dm.toInt dv
      | _ => 1
    | none => 1
  else if t.isDelayed then t.delayMs
  else 1

/-- The loop body of `Automaton::processImmediateTransitions`: scan the
transitions (with their indices) in order; each one whose source is the
active state and whose `isTriggered` holds is armed at its computed
delay.  A guard evaluation error propagates as a C++ exception: the scan
stops, timers armed so far remain armed, and `.error` is returned. -/
def armLoop {D : Type} (dm : DoubleModel D) (gctx : GuardCtx D)
    (vars : List (String × Variable D)) (active : Nat) (trigger : String)
    (now : Int) :
    List (Nat × Transition D) → List Timer → List Timer × Except String Bool
  | [], tm => (tm, .ok false)
  | (i, t) :: rest, tm =>
    if t.src = active then
      match t.isTriggered trigger gctx with
      | .error e => (tm, .error e)
      | .ok true =>
        armLoop dm gctx vars active trigger now rest
          (schedArm tm now i (armDelay dm vars t))
      | .ok false => armLoop dm gctx vars active trigger now rest tm
    else armLoop dm gctx vars active trigger now rest tm

/-- `Automaton::processImmediateTransitions(trigger)` (automaton.cpp):
build a guard context from a variable snapshot and the last-seen inputs,
arm every currently triggered outgoing transition of the active state,
and return false.  The returned automaton carries the updated scheduler
heap; `.error` models a guard evaluation exception escaping the function
(with the arms performed before the error kept). -/
def processImmediateTransitions {D : Type} (dm : DoubleModel D)
    (a : Automaton D) (now : Int) (trigger : String) :
    Automaton D × Except String Bool :=
  let gctx : GuardCtx D := { vars := makeVarSnapshot a.vars, inputs := a.inputs }
  let r := armLoop dm gctx a.vars a.active trigger now
    a.transitions.enum a.timers
  ({ a with timers := r.1 }, r.2)

/-! ## The run loop (Automaton::run, automaton.cpp)

`run()` broadcasts an initial snapshot, then loops: arm immediate
transitions, wait, fire expired timers (broadcasting after each firing),
drain the incoming input queue (broadcasting after an immediate firing,
which never happens).  The loop is driven here by an explicit schedule:
one `Iter` per loop iteration, carrying the time at which the iteration
wakes up and the inputs drained from the incoming queue during it; the
stop flag is modelled by the schedule ending.  A guard exception thrown
anywhere in an iteration propagates out of `run()` and terminates the
executor; `runModel` reports it while keeping the snapshots already
sent. -/

/-- One iteration of the executor loop: wake-up time and the inputs
drained from the incoming queue. -/
structure Iter where
  now : Int
  inputs : List (String × String)

/-- The timer-firing part of a loop iteration: pop all expired timers
and fire each popped transition index with the empty trigger,
broadcasting a snapshot after every successful firing. -/
def fireExpiredPhase {D : Type} (a : Automaton D) (now : Int) :
    Automaton D × List (Snapshot D) :=
  let pe := schedPopExpired a.timers now
  pe.1.foldl
    (fun acc idx =>
      let fr := fireTransition acc.1 now idx ""
      if fr.1 then
        let bs := broadcastSnapshot fr.2 now
        (bs.1, acc.2 ++ bs.2.toList)
      else (fr.2, acc.2))
    ({ a with timers := pe.2 }, [])

/-- The queue-draining part of a loop iteration: for each queued input,
store it in `m_inputs` and call `processImmediateTransitions` with the
input name, broadcasting if it reports a firing (it never does).  A guard
exception aborts the drain and propagates. -/
def drainInputsPhase {D : Type} (dm : DoubleModel D) (a : Automaton D)
    (now : Int) :
    List (String × String) → Automaton D × List (Snapshot D) × Option String
  | [] => (a, [], none)
  | (n, v) :: rest =>
    let a1 : Automaton D := { a with inputs := updAssoc a.inputs n v }
    let pr := processImmediateTransitions dm a1 now n
    match pr.2 with
    | .error e => (pr.1, [], some e)
    | .ok fired =>
      let (a2, s0) :=
        if fired then
          let bs := broadcastSnapshot pr.1 now
          (bs.1, bs.2.toList)
        else (pr.1, [])
      let rec' := drainInputsPhase dm a2 now rest
      (rec'.1, s0 ++ rec'.2.1, rec'.2.2)

/-- One full iteration of the `while (!m_stop)` loop in `Automaton::run`:
immediate arming (broadcast if it reports a firing), the blocking wait
(no state effect), expired-timer firing, queue draining.  The `Option
String` is a guard exception propagating out of the iteration. -/
def runStep {D : Type} (dm : DoubleModel D) (a : Automaton D) (it : Iter) :
    Automaton D × List (Snapshot D) × Option String :=
  let pr := processImmediateTransitions dm a it.now ""
  match pr.2 with
  | .error e => (pr.1, [], some e)
  | .ok fired =>
    let (a1, s0) :=
      if fired then
        let bs := broadcastSnapshot pr.1 it.now
        (bs.1, bs.2.toList)
      else (pr.1, [])
    let fe := fireExpiredPhase a1 it.now
    let dr := drainInputsPhase dm fe.1 it.now it.inputs
    (dr.1, s0 ++ fe.2 ++ dr.2.1, dr.2.2)

/-- The iterations of the run loop after the initial snapshot. -/
def runIters {D : Type} (dm : DoubleModel D) (a : Automaton D) :
    List Iter → Automaton D × List (Snapshot D) × Option String
  | [] => (a, [], none)
  | it :: rest =>
    let st := runStep dm a it
    match st.2.2 with
    | some e => (st.1, st.2.1, some e)
    | none =>
      let go := runIters dm st.1 rest
      (go.1, st.2.1 ++ go.2.1, go.2.2)

/-- `Automaton::run()`: initial snapshot at time `t0`, then the loop
iterations of the schedule.  Returns the final automaton state, every
snapshot sent through the channel in order, and the guard exception that
terminated the executor, if any. -/
def runModel {D : Type} (dm : DoubleModel D) (a : Automaton D) (t0 : Int)
    (iters : List Iter) : Automaton D × List (Snapshot D) × Option String :=
  let b0 := broadcastSnapshot a t0
  let go := runIters dm b0.1 iters
  (go.1, b0.2.toList ++ go.2.1, go.2.2)

/-! ## JSON document model and persistence
(persistence.hpp, persistence_bridge.cpp)

`nlohmann::ordered_json` values are modelled by `Json`; objects keep
their keys in insertion order and the code never creates duplicate keys.
Numeric payloads are modelled by `Int`: no claim inspects a number beyond
copying it verbatim (`init`, `delay_ms`). -/

/-- A JSON value (nlohmann::ordered_json). -/
inductive Json where
  | null
  | bool (b : Bool)
  | num (n : Int)
  | str (s : String)
  | arr (xs : List Json)
  | obj (kvs : List (String × Json))

/-- Key lookup on a JSON object; `none` for a missing key or a non-object
value (matching `contains`, which is false on non-objects). -/
def Json.lookup : Json → String → Option Json
  | .obj kvs, k => kvs.lookup k
  | _, _ => none

/-- `j.at(k)`: the value at a key, throwing (as an `Except` error) when
the key is missing or `j` is not an object. -/
def Json.getAt (j : Json) (k : String) : Except String Json :=
  match j.lookup k with
  | some v => .ok v
  | none => .error ("key not found: " ++ k)

/-- `get_to(std::string)`: succeeds only on a JSON string. -/
def Json.asStr : Json → Except String String
  | .str s => .ok s
  | _ => .error "type must be string"

/-- `get_to(bool)`: succeeds only on a JSON boolean. -/
def Json.asBool : Json → Except String Bool
  | .bool b => .ok b
  | _ => .error "type must be boolean"

/-- `get_to(std::vector<...>)`: succeeds only on a JSON array. -/
def Json.asArr : Json → Except String (List Json)
  | .arr xs => .ok xs
  | _ => .error "type must be array"

/-- `j.at(k).get_to(std::string)`. -/
def Json.getStr (j : Json) (k : String) : Except String String :=
  j.getAt k >>= Json.asStr

/-- `j.at(k).get<std::vector<std::string>>()` (also the semantics of the
non-const `j[k].get<...>()` in the load-time scan: a missing key makes
the read throw either way). -/
def Json.getStrArray (j : Json) (k : String) : Except String (List String) :=
  j.getAt k >>= fun v => v.asArr >>= fun xs => xs.mapM Json.asStr

/-- The shared semantics of `j.value(k, dflt)` and of the
`if (j.contains(k)) j.at(k).get_to(x)` pattern: the default when the key
is absent, the string value when present (throwing when the present value
is not a string or `j` is not an object). -/
def Json.getStrD (j : Json) (k dflt : String) : Except String String :=
  match j with
  | .obj kvs =>
    match kvs.lookup k with
    | some v => v.asStr
    | none => .ok dflt
  | _ => .error "type must be object"

/-- The `if (j.contains(k)) j.at(k).get_to(x)` pattern for a string
field: keep the default when the key is absent (`contains` is false on
non-objects), read the string when present. -/
def Json.getStrOr (j : Json) (k dflt : String) : Except String String :=
  match j.lookup k with
  | some v => v.asStr
  | none => pure dflt

/-- The `if (j.contains(k)) j.at(k).get_to(x)` pattern for a boolean
field. -/
def Json.getBoolOr (j : Json) (k : String) (dflt : Bool) : Except String Bool :=
  match j.lookup k with
  | some v => v.asBool
  | none => pure dflt

/-- Ranged-for iteration over a `nlohmann` value: an array yields its
elements, null yields nothing, an object yields its values, a primitive
yields itself once. -/
def Json.iterElems : Json → List Json
  | .arr xs => xs
  | .null => []
  | .obj kvs => kvs.map Prod.snd
  | j => [j]

/-- `core_fsm::persistence::VariableDesc` (persistence.hpp): name, type
name and the raw JSON initial value. -/
structure VariableDesc where
  name : String
  type : String
  init : Json

/-- `core_fsm::persistence::StateDesc` (persistence.hpp). -/
structure StateDesc where
  id : String
  initial : Bool := false
  onEnter : String := ""

/-- `core_fsm::persistence::TransitionDesc` (persistence.hpp).  The C++
field names `from` and `to` are Lean keywords/too short, hence `fromId`
and `toId`. -/
structure TransitionDesc where
  fromId : String
  toId : String
  trigger : String := ""
  guard : String := ""
  delay_ms : Json := .null

/-- `core_fsm::persistence::FsmDocument` (persistence.hpp).  The C++
field name `variables` is a reserved token in Lean, hence `varDescs`. -/
structure FsmDocument where
  name : String
  comment : String := ""
  inputs : List String
  outputs : List String
  varDescs : List VariableDesc
  states : List StateDesc
  transitions : List TransitionDesc

/-! Serializers (the `adl_serializer` specialisations in persistence.hpp). -/

/-- `to_json(VariableDesc)`: always emits name, type and init. -/
def VariableDesc.toJson (v : VariableDesc) : Json :=
  .obj [("name", .str v.name), ("type", .str v.type), ("init", v.init)]

/-- `from_json(VariableDesc)`: requires name, type and init. -/
def VariableDesc.fromJson (j : Json) : Except String VariableDesc := do
  let name ← j.getStr "name"
  let type ← j.getStr "type"
  let init ← j.getAt "init"
  pure { name := name, type := type, init := init }

/-- `to_json(StateDesc)`: emits id; `initial` only when true; `onEnter`
only when non-empty. -/
def StateDesc.toJson (s : StateDesc) : Json :=
  .obj ([("id", .str s.id)]
    ++ (if s.initial then [("initial", .bool true)] else [])
    ++ (if s.onEnter = "" then [] else [("onEnter", .str s.onEnter)]))

/-- `from_json(StateDesc)`: id is required; `initial` and `onEnter` are
read when present, else keep their defaults. -/
def StateDesc.fromJson (j : Json) : Except String StateDesc := do
  let id ← j.getStr "id"
  let initial ← j.getBoolOr "initial" false
  let onEnter ← j.getStrOr "onEnter" ""
  pure { id := id, initial := initial, onEnter := onEnter }

/-- `to_json(TransitionDesc)`: emits from and to; `trigger` and `guard`
only when non-empty; `delay_ms` only when non-null. -/
def TransitionDesc.toJson (t : TransitionDesc) : Json :=
  .obj ([("from", .str t.fromId), ("to", .str t.toId)]
    ++ (if t.trigger = "" then [] else [("trigger", .str t.trigger)])
    ++ (if t.guard = "" then [] else [("guard", .str t.guard)])
    ++ (match t.delay_ms with | .null => [] | d => [("delay_ms", d)]))

/-- `from_json(TransitionDesc)`: from and to are required; `trigger`,
`guard` and `delay_ms` are read when present, else keep their defaults. -/
def TransitionDesc.fromJson (j : Json) : Except String TransitionDesc := do
  let fromId ← j.getStr "from"
  let toId ← j.getStr "to"
  let trigger ← j.getStrOr "trigger" ""
  let guard ← j.getStrOr "guard" ""
  let delay_ms := (j.lookup "delay_ms").getD Json.null
  pure { fromId := fromId, toId := toId, trigger := trigger,
         guard := guard, delay_ms := delay_ms }

/-- `to_json(FsmDocument)`: every field is always emitted, in declaration
order, under the key `name` (never `id`). -/
def FsmDocument.toJson (d : FsmDocument) : Json :=
  .obj [("name", .str d.name),
        ("comment", .str d.comment),
        ("inputs", .arr (d.inputs.map Json.str)),
        ("outputs", .arr (d.outputs.map Json.str)),
        ("variables", .arr (d.varDescs.map VariableDesc.toJson)),
        ("states", .arr (d.states.map StateDesc.toJson)),
        ("transitions", .arr (d.transitions.map TransitionDesc.toJson))]

/-- The name-reading step of `from_json(FsmDocument)`:
`if (j.contains("id")) j.at("id").get_to(d.name); else j.at("name").get_to(d.name)`. -/
def Json.nameOrId (j : Json) : Except String String :=
  match j.lookup "id" with
  | some v => v.asStr
  | none => j.getStr "name"

/-- `from_json(FsmDocument)`: the name is read from the key `id` when
that key is present, otherwise from `name`; `comment` is optional; the
five containers are required. -/
def FsmDocument.fromJson (j : Json) : Except String FsmDocument := do
  let name ← j.nameOrId
  let comment ← j.getStrOr "comment" ""
  let inputs ← j.getStrArray "inputs"
  let outputs ← j.getStrArray "outputs"
  let varsJ ← j.getAt "variables" >>= Json.asArr
  let varDescs ← varsJ.mapM VariableDesc.fromJson
  let statesJ ← j.getAt "states" >>= Json.asArr
  let states ← statesJ.mapM StateDesc.fromJson
  let transJ ← j.getAt "transitions" >>= Json.asArr
  let transitions ← transJ.mapM TransitionDesc.fromJson
  pure { name := name, comment := comment, inputs := inputs,
         outputs := outputs, varDescs := varDescs, states := states,
         transitions := transitions }

/-! ## Load-time sanity checks (loadFile, persistence_bridge.cpp) -/

/-- Try to match the regex `valueof\(\"([^\"]+)\"\)` at the head of the
character list: the literal prefix, then one or more non-quote
characters (the capture), then the closing quote and parenthesis. -/
def valueofAtHead (cs : List Char) : Option String :=
  let lit := "valueof(\"".toList
  if cs.take lit.length = lit then
    let tail := cs.drop lit.length
    let sym := tail.takeWhile fun c => c ≠ '"'
    let rest := tail.drop sym.length
    if sym ≠ [] ∧ rest.take 2 = "\")".toList then
      some (String.mk sym)
    else none
  else none

/-- Search the character list for the leftmost match. -/
def firstValueofAux : List Char → Option String
  | [] => none
  | c :: rest =>
    match valueofAtHead (c :: rest) with
    | some sym => some sym
    | none => firstValueofAux rest

/-- `std::regex_search(guard, m, vo_re)` with the pattern
`valueof\(\"([^\"]+)\"\)`: the capture of the leftmost match, if any. -/
def firstValueof (s : String) : Option String :=
  firstValueofAux s.toList

/-- The load-time warnings, by kind and the names interpolated into the
message text (the exact message formatting is immaterial). -/
inductive Warning where
  | guardWithoutTrigger (fromId toId : String)
  | unknownTrigger (trigger fromId toId : String)
  | unknownSymbol (fromId toId sym : String)
deriving DecidableEq

/-- The per-transition checks of the scan loop in `loadFile`, in source
order with the `break` after each hit: a non-empty guard with an empty
trigger; a non-empty trigger not among the declared inputs; a guard whose
first `valueof("X")` names an X that is neither a declared input nor a
declared variable. -/
def scanTransition (inputs varNames : List String) (t : Json) :
    Except String (Option Warning) := do
  let trig ← t.getStrD "trigger" ""
  let guard ← t.getStrD "guard" ""
  if guard ≠ "" ∧ trig = "" then do
    let f ← t.getStr "from"
    let g ← t.getStr "to"
    pure (some (.guardWithoutTrigger f g))
  else if trig ≠ "" ∧ ¬ inputs.contains trig then do
    let f ← t.getStr "from"
    let g ← t.getStr "to"
    pure (some (.unknownTrigger trig f g))
  else
    match firstValueof guard with
    | some sym =>
      if ¬ (inputs.contains sym ∨ varNames.contains sym) then do
        let f ← t.getStr "from"
        let g ← t.getStr "to"
        pure (some (.unknownSymbol f g sym))
      else pure none
    | none => pure none

/-- The scan loop over `j["transitions"]`: stop at the first transition
that yields a warning. -/
def scanTransitions (inputs varNames : List String) :
    List Json → Except String (Option Warning)
  | [] => .ok none
  | t :: rest => do
    match ← scanTransition inputs varNames t with
    | some w => pure (some w)
    | none => scanTransitions inputs varNames rest

/-- The sanity-check section of `loadFile`: collect the declared inputs
(`j["inputs"].get<std::vector<std::string>>()`), collect the declared
variable names (`v["name"]` for each element of `j["variables"]`), then
scan the transitions.  These reads run outside any try block, so a
failure (`.error`) is an exception escaping `loadFile`. -/
def loadScan (j : Json) : Except String (Option Warning) := do
  let inputs ← j.getStrArray "inputs"
  let varsIter : List Json :=
    match j.lookup "variables" with
    | some v => v.iterElems
    | none => []
  let varNames ← varsIter.mapM fun v => v.getStr "name"
  let transIter : List Json :=
    match j.lookup "transitions" with
    | some v => v.iterElems
    | none => []
  scanTransitions inputs varNames transIter

/-- The observable outcome of `loadFile` on a parsed JSON value: success
with the document and the optional warning delivered through `err`,
failure (return false, for a schema error), or an exception escaping the
function (from the unguarded scan code). -/
inductive LoadResult where
  | ok (doc : FsmDocument) (warning : Option Warning)
  | fail (err : String)
  | crash (err : String)

/-- `core_fsm::persistence::loadFile` after JSON parsing succeeded
(persistence_bridge.cpp): run the sanity scan (whose own read errors
escape as exceptions), convert to the DTO (a conversion error is caught
and reported as a schema error, returning false), and return the
document together with the first warning found, if any. -/
def loadFile (j : Json) : LoadResult :=
  match loadScan j with
  | .error e => .crash e
  | .ok warning =>
    match FsmDocument.fromJson j with
    | .error e => .fail ("FSM schema error: " ++ e)
    | .ok d => .ok d warning

/-- Modelled from the spec wording of the warning checks, for comparison
with `loadFile`: the warnings a single transition DTO gives rise to, in
the order the spec lists the checks. -/
def transitionWarningsSpec (inputs varNames : List String)
    (t : TransitionDesc) : List Warning :=
  (if t.guard ≠ "" ∧ t.trigger = "" then
    [.guardWithoutTrigger t.fromId t.toId] else [])
  ++ (if t.trigger ≠ "" ∧ ¬ inputs.contains t.trigger then
    [.unknownTrigger t.trigger t.fromId t.toId] else [])
  ++ (match firstValueof t.guard with
    | some sym =>
      if ¬ (inputs.contains sym ∨ varNames.contains sym) then
        [.unknownSymbol t.fromId t.toId sym]
      else []
    | none => [])

/-- Modelled from the spec wording: scanning the transitions in document
order and reporting only the first warning found. -/
def firstWarningSpec (d : FsmDocument) : Option Warning :=
  ((d.transitions.map
    (transitionWarningsSpec d.inputs (d.varDescs.map VariableDesc.name))).flatten).head?

/-! ## Shared proof helpers -/

/-- Invert a successful `Except` bind. -/
theorem except_bind_ok {α β : Type} {x : Except String α}
    {f : α → Except String β} {b : β} (h : x >>= f = Except.ok b) :
    ∃ a, x = Except.ok a ∧ f a = Except.ok b := by
  cases x with
  | error e => exact Except.noConfusion h
  | ok a => exact ⟨a, rfl, h⟩

/-- A concrete instance of the double abstraction, used by the closed
witness and counterexample statements. -/
def dmUnit : DoubleModel Unit :=
  { toInt := fun _ => 0, toStr := fun _ => "", truthy := fun _ => false }

/-! ## Claim C4 — purgeForState removes exactly the stale timers -/

/-- C4: for every scheduler heap content and every mapping `srcOf` from
transition index to source-state index, `purgeForState` produces exactly
(as a multiset) the pending timers whose transition's source state equals
the active state — every stale timer is removed, every other timer is
retained — so afterwards the heap holds timers only for transitions whose
source state equals the active state. -/
theorem purgeForState_keeps_exactly_active (h : List Timer)
    (activeState : Nat) (srcOf : Nat → Nat) :
    List.Perm (purgeForState h activeState srcOf)
      (h.filter fun t => srcOf t.transitionIndex == activeState)
    ∧ (purgeForState h activeState srcOf).all
        (fun t => srcOf t.transitionIndex == activeState) = true := by
  have hperm :
      List.Perm (purgeForState h activeState srcOf)
        (h.filter fun t => srcOf t.transitionIndex == activeState) := by
    simpa [purgeForState] using
      foldl_schedPush_perm
        (h.filter fun t => srcOf t.transitionIndex == activeState) []
  refine ⟨hperm, ?_⟩
  rw [List.all_eq_true]
  intro t ht
  exact (List.mem_filter.mp (hperm.mem_iff.mp ht)).2

/-! ## Claim C3 — fireTransition on a stale transition is a no-op -/

/-- C3: whenever `fireTransition(idx, trigger)` is called with a
transition whose source state differs from the active state, it returns
false and leaves the automaton completely unchanged — active state, event
log, timers, variables, inputs, outputs, sequence counter and state-entry
instant included. -/
theorem fireTransition_stale {D : Type} (a : Automaton D) (now : Int)
    (idx : Nat) (trigger : String) (h : idx < a.transitions.length)
    (hsrc : (a.transitions.get ⟨idx, h⟩).src ≠ a.active) :
    fireTransition a now idx trigger = (false, a) := by
  unfold fireTransition
  rw [List.getElem?_eq_getElem h]
  simp only [List.get_eq_getElem] at hsrc
  simp [hsrc]

/-- Concrete automaton for the C3 witness: the single transition starts
at state 1 while state 0 is active. -/
def autoC3 : Automaton Unit :=
  { states := [{ name := "A", onEnter := none }, { name := "B", onEnter := none }]
    transitions := [{ inputName := "", guard := none, src := 1, dst := 0 }]
    active := 0
    vars := [("x", { name := "x", type := .int, value := .int 3 })]
    inputs := [("in", "1")]
    outputs := []
    timers := [{ due := 5, transitionIndex := 0 }]
    log := []
    seq := 4
    stateSince := 2
    channel := true }

/-- Witness for C3 at a concrete input. -/
theorem fireTransition_stale_witness :
    0 < autoC3.transitions.length
    ∧ (autoC3.transitions.get ⟨0, by decide⟩).src ≠ autoC3.active
    ∧ fireTransition autoC3 9 0 "in" = (false, autoC3) :=
  ⟨by decide, by decide,
   fireTransition_stale autoC3 9 0 "in" (by decide) (by decide)⟩

/-! ## Claim C2 — the two `valueof` helpers -/

/-- Counterexample to C2: the `bindCtx` install of `valueof`
(script_engine.cpp) does not return the input's string form when that
input is present with the empty-string value — JS `||` skips the falsy
empty string and returns the variable's raw (unstringified) value
instead.  Here input `x` is present with value `""` and variable `x`
holds the integer 5: the claim demands the JS string `""`, the code
yields the JS number 5.  The guard-engine install (transition.cpp) does
return `""` on the same context. -/
theorem valueofBindCtx_empty_input_counterexample :
    valueofBindCtx dmUnit [("x", "")]
      [("x", { name := "x", type := .int, value := .int 5 })] "x"
      = JSVal.num 5
    ∧ JSVal.num 5 ≠ (JSVal.str "" : JSVal Unit)
    ∧ valueofGuardEngine dmUnit [("x", "")] [("x", Value.int 5)] "x" = "" := by
  refine ⟨rfl, by decide, rfl⟩

/-- C2 as amended: the guard-engine `valueof` (transition.cpp) behaves as
the claim states — input string if the name is an input (even the empty
string), else the string form of the variable's bound JS value, else the
empty string.  The `bindCtx` `valueof` (script_engine.cpp) instead
returns the first truthy of `ctx.inputs[n]`, `ctx.vars[n]`, `""`: an
input whose value is the empty string is skipped in favour of the
variable, and a variable value is returned unstringified (and skipped
when falsy). -/
theorem valueof_semantics {D : Type} (dm : DoubleModel D)
    (ins : List (String × String)) (vars : List (String × Value D))
    (varsB : List (String × Variable D)) (n : String) :
    (∀ s, ins.lookup n = some s → valueofGuardEngine dm ins vars n = s)
    ∧ (ins.lookup n = none → ∀ v, vars.lookup n = some v →
        valueofGuardEngine dm ins vars n = jsToString dm (jsOfValueGuard v))
    ∧ (ins.lookup n = none → vars.lookup n = none →
        valueofGuardEngine dm ins vars n = "")
    ∧ (∀ s, ins.lookup n = some s → s ≠ "" →
        valueofBindCtx dm ins varsB n = .str s)
    ∧ (ins.lookup n = some "" →
        valueofBindCtx dm ins varsB n =
          (match varsB.lookup n with
           | some v =>
             if jsTruthy dm (jsOfValueBind v.value) then jsOfValueBind v.value
             else .str ""
           | none => .str ""))
    ∧ (ins.lookup n = none →
        valueofBindCtx dm ins varsB n =
          (match varsB.lookup n with
           | some v =>
             if jsTruthy dm (jsOfValueBind v.value) then jsOfValueBind v.value
             else .str ""
           | none => .str "")) := by
  refine ⟨?_, ?_, ?_, ?_, ?_, ?_⟩
  · intro s hs; simp [valueofGuardEngine, hs, jsToString]
  · intro hn v hv; simp [valueofGuardEngine, hn, hv]
  · intro hn hv; simp [valueofGuardEngine, hn, hv]
  · intro s hs hne
    simp [valueofBindCtx, hs, jsTruthy, hne]
  · intro hs
    cases hv : varsB.lookup n with
    | none => simp [valueofBindCtx, hs, hv, jsTruthy]
    | some v => simp [valueofBindCtx, hs, hv, jsTruthy]
  · intro hn
    cases hv : varsB.lookup n with
    | none => simp [valueofBindCtx, hn, hv, jsTruthy]
    | some v => simp [valueofBindCtx, hn, hv, jsTruthy]

/-- Witness for C2 (amended) at concrete inputs: an empty-string input
falls through to a truthy integer variable. -/
theorem valueof_semantics_witness :
    ([("x", "")].lookup "x" = some "")
    ∧ valueofBindCtx dmUnit [("x", "")]
        [("x", { name := "x", type := .int, value := .int 7 })] "x"
        = JSVal.num 7 := by
  refine ⟨by decide, ?_⟩
  have h :=
    (valueof_semantics dmUnit [("x", "")] []
      [("x", { name := "x", type := .int, value := .int 7 })]
      "x").2.2.2.2.1 (by decide)
  simpa using h

/-! ## Claim C8 — setVariable coercion -/

/-- Counterexample to C8: `Automaton::setVariable` (automaton.cpp) has
switch cases only for `Int` and `Double`; a variable declared `Bool`
takes the `String`/`default` branch, so the string "true" is stored as
the raw string, not as boolean true as the claim states. -/
theorem setVariable_bool_counterexample :
    setVarMap (D := Unit) (fun _ => none) (fun _ => none)
      [("b", { name := "b", type := .bool, value := .bool false })]
      "b" "true"
      = [("b", { name := "b", type := .bool, value := .str "true" })]
    ∧ (Value.str "true" : Value Unit) ≠ Value.bool true := by
  refine ⟨rfl, by decide⟩

/-- Modelled from the spec's coercion table, as amended: `Int` parses via
`stoi`, `Double` via `stod`, every other declared type — `String` and
`Bool` alike — stores the raw string; a parse failure stores the raw
string. -/
def coerceSpec {D : Type} (stoi : String → Option Int)
    (stod : String → Option D) (ty : VarType) (s : String) : Value D :=
  match ty with
  | .int =>
    match stoi s with
    | some n => .int n
    | none => .str s
  | .double =>
    match stod s with
    | some d => .dbl d
    | none => .str s
  | _ => .str s

/-- Frame part of the setVariable semantics: an unknown name leaves the
variable map unchanged. -/
theorem setVarMap_lookup_none {D : Type} (stoi : String → Option Int)
    (stod : String → Option D) :
    ∀ (vars : List (String × Variable D)) (name s : String),
      vars.lookup name = none → setVarMap stoi stod vars name s = vars := by
  intro vars name s
  induction vars with
  | nil => intro _; rfl
  | cons kv rest ih =>
    obtain ⟨k', var'⟩ := kv
    intro hn
    by_cases hk : k' = name
    · subst hk
      simp [List.lookup] at hn
    · have hne : (name == k') = false := by
        simp [beq_iff_eq]
        exact fun hh => hk hh.symm
      have hn' : rest.lookup name = none := by
        simpa [List.lookup, hne] using hn
      simp [setVarMap, hk, ih hn']

/-- Value part of the setVariable semantics: a found variable is stored
with the string coerced per its declared type. -/
theorem setVarMap_lookup_found {D : Type} (stoi : String → Option Int)
    (stod : String → Option D) :
    ∀ (vars : List (String × Variable D)) (name s : String)
      (var : Variable D), vars.lookup name = some var →
      (setVarMap stoi stod vars name s).lookup name
        = some { var with value := coerceSpec stoi stod var.type s } := by
  intro vars name s
  induction vars with
  | nil => intro var hv; exact Option.noConfusion hv
  | cons kv rest ih =>
    obtain ⟨k', var'⟩ := kv
    intro var hv
    by_cases hk : k' = name
    · subst hk
      have hv' : var = var' := by
        simpa [List.lookup] using hv.symm
      subst hv'
      cases htyp : var.type <;>
        simp [setVarMap, List.lookup, coerceSpec, htyp]
    · have hne : (name == k') = false := by
        simp [beq_iff_eq]
        exact fun hh => hk hh.symm
      have hv' : rest.lookup name = some var := by
        simpa [List.lookup, hne] using hv
      simp [setVarMap, hk, List.lookup, hne, ih var hv']

/-- Frame part of the setVariable semantics: variables other than the
named one keep their values. -/
theorem setVarMap_lookup_other {D : Type} (stoi : String → Option Int)
    (stod : String → Option D) :
    ∀ (vars : List (String × Variable D)) (name s k : String), k ≠ name →
      (setVarMap stoi stod vars name s).lookup k = vars.lookup k := by
  intro vars name s
  induction vars with
  | nil => intro k _; rfl
  | cons kv rest ih =>
    obtain ⟨k', var'⟩ := kv
    intro k hkne
    by_cases hk : k' = name
    · subst hk
      have hne : (k == k') = false := by
        simp [beq_iff_eq]
        exact fun hh => hkne hh
      simp [setVarMap, List.lookup, hne]
    · by_cases hkk : k = k'
      · subst hkk
        simp [setVarMap, hk, List.lookup]
      · have hne : (k == k') = false := by simp [beq_iff_eq, hkk]
        simp [setVarMap, hk, List.lookup, hne, ih k hkne]

/-- C8 as amended: for a variable present in the map, `setVariable`
stores the string coerced per the declared type — `Int` via the signed
decimal parse, `Double` via the floating-point parse, and any other
declared type (`String` and `Bool` alike) as the raw string, with the raw
string also stored on parse failure — leaving every other variable
untouched; a name with no matching variable leaves the whole map
unchanged. -/
theorem setVariable_semantics {D : Type} (stoi : String → Option Int)
    (stod : String → Option D) (vars : List (String × Variable D))
    (name s : String) :
    (vars.lookup name = none → setVarMap stoi stod vars name s = vars)
    ∧ (∀ var, vars.lookup name = some var →
        (setVarMap stoi stod vars name s).lookup name
          = some { var with value := coerceSpec stoi stod var.type s })
    ∧ (∀ k, k ≠ name →
        (setVarMap stoi stod vars name s).lookup k = vars.lookup k) :=
  ⟨setVarMap_lookup_none stoi stod vars name s,
   setVarMap_lookup_found stoi stod vars name s,
   fun k hk => setVarMap_lookup_other stoi stod vars name s k hk⟩

/-- Witness for C8 (amended) at concrete inputs: an Int variable parsed
from "42", checked through the lookup characterization. -/
theorem setVariable_semantics_witness :
    ([("n", { name := "n", type := VarType.int, value := Value.int 0 })].lookup "n"
      = some ({ name := "n", type := VarType.int, value := Value.int 0 } : Variable Unit))
    ∧ (setVarMap (D := Unit) (fun s => s.toInt?) (fun _ => none)
        [("n", { name := "n", type := .int, value := .int 0 })] "n" "42").lookup "n"
      = some { name := "n", type := .int,
               value := coerceSpec (fun s => s.toInt?) (fun _ => none) VarType.int "42" } :=
  ⟨by decide,
   (setVariable_semantics (D := Unit) (fun s => s.toInt?) (fun _ => none)
     [("n", { name := "n", type := .int, value := .int 0 })] "n" "42").2.1
     { name := "n", type := .int, value := .int 0 } (by decide)⟩

/-! ## Claim C7 — name vs legacy id precedence -/

/-- A document carrying both a top-level `name` and a legacy `id`. -/
def jsonBothNames : Json :=
  .obj [("id", .str "legacy"), ("name", .str "modern"),
        ("inputs", .arr []), ("outputs", .arr []),
        ("variables", .arr []), ("states", .arr []),
        ("transitions", .arr [])]

/-- Counterexample to C7: `from_json(FsmDocument)` (persistence.hpp)
checks `contains("id")` first, so for a document containing both keys the
loaded name is the `id` value, not the `name` value as the claim
states. -/
theorem fromJson_name_counterexample :
    FsmDocument.fromJson jsonBothNames
      = Except.ok { name := "legacy", comment := "", inputs := [],
                    outputs := [], varDescs := [], states := [],
                    transitions := [] }
    ∧ "legacy" ≠ "modern" :=
  ⟨rfl, by decide⟩

/-- C7 as amended: load takes the automaton's name from the legacy key
`id` whenever that key is present, and from `name` only when `id` is
absent; in particular, for every document that contains a top-level
string `name` and no `id`, the loaded DTO's name equals that `name`
field. -/
theorem fromJson_name_precedence (j : Json) (d : FsmDocument) (s : String) :
    (j.lookup "id" = some (.str s) → FsmDocument.fromJson j = .ok d →
      d.name = s)
    ∧ (j.lookup "id" = none → j.lookup "name" = some (.str s) →
        FsmDocument.fromJson j = .ok d → d.name = s) := by
  constructor
  · intro hid h
    rw [FsmDocument.fromJson] at h
    obtain ⟨nm, h1, h⟩ := except_bind_ok h
    rw [Json.nameOrId, hid] at h1
    obtain ⟨cm, h2, h⟩ := except_bind_ok h
    obtain ⟨ins, h3, h⟩ := except_bind_ok h
    obtain ⟨outs, h4, h⟩ := except_bind_ok h
    obtain ⟨varsJ, h5, h⟩ := except_bind_ok h
    obtain ⟨vds, h6, h⟩ := except_bind_ok h
    obtain ⟨stJ, h7, h⟩ := except_bind_ok h
    obtain ⟨sts, h8, h⟩ := except_bind_ok h
    obtain ⟨trJ, h9, h⟩ := except_bind_ok h
    obtain ⟨trs, h10, h⟩ := except_bind_ok h
    have hnm : nm = s := by
      simpa [Json.asStr] using h1.symm
    injection h with h
    rw [← h, hnm]
  · intro hid hname h
    rw [FsmDocument.fromJson] at h
    obtain ⟨nm, h1, h⟩ := except_bind_ok h
    rw [Json.nameOrId, hid] at h1
    obtain ⟨cm, h2, h⟩ := except_bind_ok h
    obtain ⟨ins, h3, h⟩ := except_bind_ok h
    obtain ⟨outs, h4, h⟩ := except_bind_ok h
    obtain ⟨varsJ, h5, h⟩ := except_bind_ok h
    obtain ⟨vds, h6, h⟩ := except_bind_ok h
    obtain ⟨stJ, h7, h⟩ := except_bind_ok h
    obtain ⟨sts, h8, h⟩ := except_bind_ok h
    obtain ⟨trJ, h9, h⟩ := except_bind_ok h
    obtain ⟨trs, h10, h⟩ := except_bind_ok h
    have hnm : nm = s := by
      rw [Json.getStr] at h1
      obtain ⟨v, hv, hvs⟩ := except_bind_ok h1
      rw [Json.getAt, hname] at hv
      have hv' : v = Json.str s := by
        simpa using hv.symm
      subst hv'
      simpa [Json.asStr] using hvs.symm
    injection h with h
    rw [← h, hnm]

/-- A document carrying only a top-level `name`. -/
def jsonOnlyName : Json :=
  .obj [("name", .str "modern"),
        ("inputs", .arr []), ("outputs", .arr []),
        ("variables", .arr []), ("states", .arr []),
        ("transitions", .arr [])]

/-- Witness for C7 (amended) at concrete inputs. -/
theorem fromJson_name_precedence_witness :
    jsonOnlyName.lookup "id" = none
    ∧ jsonOnlyName.lookup "name" = some (.str "modern")
    ∧ FsmDocument.fromJson jsonOnlyName
        = Except.ok { name := "modern", comment := "", inputs := [],
                      outputs := [], varDescs := [], states := [],
                      transitions := [] }
    ∧ ({ name := "modern", comment := "", inputs := [], outputs := [],
         varDescs := [], states := [],
         transitions := [] } : FsmDocument).name = "modern" :=
  ⟨rfl, rfl, rfl,
   (fromJson_name_precedence jsonOnlyName
     { name := "modern", comment := "", inputs := [], outputs := [],
       varDescs := [], states := [], transitions := [] } "modern").2
     rfl rfl rfl⟩

/-! ## Claim C1 — a guard evaluation error stops the executor -/

/-- Concrete automaton whose single outgoing transition of the active
state has an empty trigger and a guard whose evaluation throws (a JS
runtime error such as calling an undefined function). -/
def autoGuardThrows : Automaton Unit :=
  { states := [{ name := "A", onEnter := none }]
    transitions := [{ inputName := "",
                      guard := some fun _ => .error "JS guard error: ReferenceError",
                      src := 0, dst := 0 }]
    active := 0
    vars := []
    inputs := []
    outputs := []
    timers := []
    log := []
    seq := 0
    stateSince := 0
    channel := true }

/-- C1 evaluated at the failing input: when the compiled guard of an
eligible transition throws during the internal empty tick, the exception
escapes `processImmediateTransitions` (there is no try/catch in
automaton.cpp), so the run loop does not continue: the executor
terminates after the initial snapshot, instead of treating the transiton
as not triggered and carrying on as the claim states. -/
theorem guard_error_stops_executor :
    (processImmediateTransitions dmUnit autoGuardThrows 0 "").2
      = Except.error "JS guard error: ReferenceError"
    ∧ (runModel dmUnit autoGuardThrows 0 [{ now := 0, inputs := [] }]).2.2
      = some "JS guard error: ReferenceError"
    ∧ (runModel dmUnit autoGuardThrows 0 [{ now := 0, inputs := [] }]).2.1.length = 1 :=
  ⟨rfl, rfl, rfl⟩

/-! ## Claim C5 — snapshot sequence numbers -/

/-- The relation between an automaton state, the snapshots a piece of the
executor emits from it, and the resulting state: the channel flag is
preserved, the sequence counter advances by the number of emitted
snapshots, and the emitted sequence numbers are consecutive starting just
above the initial counter. -/
def SeqEmits {D : Type} (a : Automaton D) (snaps : List (Snapshot D))
    (b : Automaton D) : Prop :=
  b.channel = a.channel ∧ b.seq = a.seq + snaps.length
  ∧ snaps.map Snapshot.seq = List.range' (a.seq + 1) snaps.length

theorem seqEmits_of_frame {D : Type} {a b : Automaton D}
    (hc : b.channel = a.channel) (hs : b.seq = a.seq) : SeqEmits a [] b :=
  ⟨hc, hs, rfl⟩

theorem seqEmits_trans {D : Type} {a b c : Automaton D}
    {s1 s2 : List (Snapshot D)} (h1 : SeqEmits a s1 b)
    (h2 : SeqEmits b s2 c) : SeqEmits a (s1 ++ s2) c := by
  obtain ⟨hc1, hs1, hm1⟩ := h1
  obtain ⟨hc2, hs2, hm2⟩ := h2
  refine ⟨hc2.trans hc1, ?_, ?_⟩
  · rw [hs2, hs1, List.length_append]
    omega
  · rw [List.map_append, hm1, hm2, hs1, List.length_append]
    have h := List.range'_append_1 (a.seq + 1) s1.length s2.length
    rw [show a.seq + 1 + s1.length = a.seq + s1.length + 1 by omega] at h
    rw [h, Nat.add_comm s2.length s1.length]

theorem broadcast_seqEmits {D : Type} (a : Automaton D) (ts : Int) :
    SeqEmits a (broadcastSnapshot a ts).2.toList (broadcastSnapshot a ts).1 := by
  by_cases hc : a.channel
  · refine ⟨by simp [broadcastSnapshot, hc], by simp [broadcastSnapshot, hc], ?_⟩
    simp [broadcastSnapshot, hc, List.range']
  · have hc' : a.channel = false := by simpa using hc
    refine ⟨?_, ?_, ?_⟩ <;> simp [broadcastSnapshot, hc']

theorem fireTransition_frame {D : Type} (a : Automaton D) (now : Int)
    (idx : Nat) (trigger : String) :
    (fireTransition a now idx trigger).2.channel = a.channel
    ∧ (fireTransition a now idx trigger).2.seq = a.seq := by
  cases h : a.transitions[idx]? with
  | none => simp [fireTransition, h]
  | some t =>
    by_cases hs : t.src ≠ a.active
    · simp [fireTransition, h, hs]
    · simp [fireTransition, h, hs]

theorem processImmediate_frame {D : Type} (dm : DoubleModel D)
    (a : Automaton D) (now : Int) (trigger : String) :
    (processImmediateTransitions dm a now trigger).1.channel = a.channel
    ∧ (processImmediateTransitions dm a now trigger).1.seq = a.seq :=
  ⟨rfl, rfl⟩

theorem fireFold_seqEmits {D : Type} (now : Int) (a0 : Automaton D) :
    ∀ (idxs : List Nat) (st : Automaton D × List (Snapshot D)),
      SeqEmits a0 st.2 st.1 →
      SeqEmits a0
        (idxs.foldl
          (fun acc idx =>
            let fr := fireTransition acc.1 now idx ""
            if fr.1 then
              let bs := broadcastSnapshot fr.2 now
              (bs.1, acc.2 ++ bs.2.toList)
            else (fr.2, acc.2)) st).2
        (idxs.foldl
          (fun acc idx =>
            let fr := fireTransition acc.1 now idx ""
            if fr.1 then
              let bs := broadcastSnapshot fr.2 now
              (bs.1, acc.2 ++ bs.2.toList)
            else (fr.2, acc.2)) st).1 := by
  intro idxs
  induction idxs with
  | nil => intro st h; exact h
  | cons idx rest ih =>
    intro st h
    simp only [List.foldl_cons]
    apply ih
    dsimp only
    have hfr := fireTransition_frame st.1 now idx ""
    have hframe : SeqEmits a0 st.2 (fireTransition st.1 now idx "").2 := by
      simpa using seqEmits_trans h (seqEmits_of_frame hfr.1 hfr.2)
    by_cases hb : (fireTransition st.1 now idx "").1 = true
    · rw [if_pos hb]
      exact seqEmits_trans hframe
        (broadcast_seqEmits (fireTransition st.1 now idx "").2 now)
    · rw [if_neg hb]
      exact hframe

theorem fireExpired_seqEmits {D : Type} (a : Automaton D) (now : Int) :
    SeqEmits a (fireExpiredPhase a now).2 (fireExpiredPhase a now).1 := by
  unfold fireExpiredPhase
  exact fireFold_seqEmits now a _ _ (seqEmits_of_frame rfl rfl)

theorem drain_seqEmits {D : Type} (dm : DoubleModel D) (now : Int) :
    ∀ (ins : List (String × String)) (a : Automaton D),
      SeqEmits a (drainInputsPhase dm a now ins).2.1
        (drainInputsPhase dm a now ins).1 := by
  intro ins
  induction ins with
  | nil => intro a; exact seqEmits_of_frame rfl rfl
  | cons nv rest ih =>
    intro a
    obtain ⟨n, v⟩ := nv
    simp only [drainInputsPhase]
    cases hpr : (processImmediateTransitions dm
        { a with inputs := updAssoc a.inputs n v } now n).2 with
    | error e =>
      simp only
      exact seqEmits_of_frame rfl rfl
    | ok fired =>
      simp only
      have hframe :
          SeqEmits a []
            (processImmediateTransitions dm
              { a with inputs := updAssoc a.inputs n v } now n).1 :=
        seqEmits_of_frame rfl rfl
      by_cases hf : fired = true
      · subst hf
        simp only [if_true]
        have hb := broadcast_seqEmits
          (processImmediateTransitions dm
            { a with inputs := updAssoc a.inputs n v } now n).1 now
        have h1 := seqEmits_trans hframe hb
        have h2 := ih (broadcastSnapshot
          (processImmediateTransitions dm
            { a with inputs := updAssoc a.inputs n v } now n).1 now).1
        simpa using seqEmits_trans h1 h2
      · have hf' : fired = false := by
          cases fired
          · rfl
          · exact absurd rfl hf
        subst hf'
        simp only [Bool.false_eq_true, if_false]
        have h2 := ih (processImmediateTransitions dm
          { a with inputs := updAssoc a.inputs n v } now n).1
        simpa using seqEmits_trans hframe h2

theorem runStep_seqEmits {D : Type} (dm : DoubleModel D) (a : Automaton D)
    (it : Iter) :
    SeqEmits a (runStep dm a it).2.1 (runStep dm a it).1 := by
  simp only [runStep]
  cases hpr : (processImmediateTransitions dm a it.now "").2 with
  | error e =>
    simp only
    exact seqEmits_of_frame rfl rfl
  | ok fired =>
    simp only
    have hframe :
        SeqEmits a [] (processImmediateTransitions dm a it.now "").1 :=
      seqEmits_of_frame rfl rfl
    by_cases hf : fired = true
    · subst hf
      simp only [if_true]
      have hb := broadcast_seqEmits
        (processImmediateTransitions dm a it.now "").1 it.now
      have h2 := fireExpired_seqEmits (broadcastSnapshot
        (processImmediateTransitions dm a it.now "").1 it.now).1 it.now
      have h3 := drain_seqEmits dm it.now it.inputs
        (fireExpiredPhase (broadcastSnapshot
          (processImmediateTransitions dm a it.now "").1 it.now).1 it.now).1
      exact seqEmits_trans
        (seqEmits_trans (by simpa using seqEmits_trans hframe hb) h2) h3
    · have hf' : fired = false := by
        cases fired
        · rfl
        · exact absurd rfl hf
      subst hf'
      simp only [Bool.false_eq_true, if_false]
      have h2 := fireExpired_seqEmits
        (processImmediateTransitions dm a it.now "").1 it.now
      have h3 := drain_seqEmits dm it.now it.inputs
        (fireExpiredPhase (processImmediateTransitions dm a it.now "").1 it.now).1
      exact seqEmits_trans (by simpa using seqEmits_trans hframe h2) h3

theorem runIters_seqEmits {D : Type} (dm : DoubleModel D) :
    ∀ (iters : List Iter) (a : Automaton D),
      SeqEmits a (runIters dm a iters).2.1 (runIters dm a iters).1 := by
  intro iters
  induction iters with
  | nil => intro a; exact seqEmits_of_frame rfl rfl
  | cons it rest ih =>
    intro a
    simp only [runIters]
    cases herr : (runStep dm a it).2.2 with
    | some e =>
      simp only
      have := runStep_seqEmits dm a it
      exact this
    | none =>
      simp only
      exact seqEmits_trans (runStep_seqEmits dm a it) (ih (runStep dm a it).1)

theorem runModel_seqEmits {D : Type} (dm : DoubleModel D) (a : Automaton D)
    (t0 : Int) (iters : List Iter) :
    SeqEmits a (runModel dm a t0 iters).2.1 (runModel dm a t0 iters).1 := by
  simp only [runModel]
  exact seqEmits_trans (broadcast_seqEmits a t0)
    (runIters_seqEmits dm iters (broadcastSnapshot a t0).1)

/-- C5: starting from a fresh automaton (sequence counter 0) with a
channel attached, `run()` emits snapshots whose sequence numbers are
exactly 1, 2, 3, …: the initial startup snapshot carries seq 1 and each
subsequently emitted snapshot's seq is one greater than its
predecessor's — for every schedule of loop iterations, and even when a
guard error terminates the run. -/
theorem snapshot_seq_consecutive {D : Type} (dm : DoubleModel D)
    (a : Automaton D) (t0 : Int) (iters : List Iter) (h0 : a.seq = 0)
    (hch : a.channel = true) :
    ((runModel dm a t0 iters).2.1).map Snapshot.seq
      = List.range' 1 ((runModel dm a t0 iters).2.1).length
    ∧ ((runModel dm a t0 iters).2.1).head?.map Snapshot.seq = some 1 := by
  obtain ⟨-, -, hmap⟩ := runModel_seqEmits dm a t0 iters
  rw [h0] at hmap
  refine ⟨by simpa using hmap, ?_⟩
  have hne : (runModel dm a t0 iters).2.1 ≠ [] := by
    simp only [runModel]
    simp [broadcastSnapshot, hch]
  cases hsn : (runModel dm a t0 iters).2.1 with
  | nil => exact absurd hsn hne
  | cons s rest =>
    rw [hsn] at hmap
    simp only [List.map_cons, List.length_cons, List.range'_succ] at hmap
    injection hmap with h1 h2
    simp [List.head?, h1]

/-- Concrete automaton for the C5 witness: channel attached, counter 0. -/
def autoFresh : Automaton Unit :=
  { states := [{ name := "A", onEnter := none }]
    transitions := []
    active := 0
    vars := []
    inputs := []
    outputs := []
    timers := []
    log := []
    seq := 0
    stateSince := 0
    channel := true }

/-- Witness for C5 at a concrete input. -/
theorem snapshot_seq_consecutive_witness :
    autoFresh.seq = 0 ∧ autoFresh.channel = true
    ∧ (((runModel dmUnit autoFresh 0 [{ now := 1, inputs := [] }]).2.1).map Snapshot.seq
        = List.range' 1 ((runModel dmUnit autoFresh 0 [{ now := 1, inputs := [] }]).2.1).length
      ∧ ((runModel dmUnit autoFresh 0 [{ now := 1, inputs := [] }]).2.1).head?.map Snapshot.seq
        = some 1) :=
  ⟨rfl, rfl,
   snapshot_seq_consecutive dmUnit autoFresh 0 [{ now := 1, inputs := [] }] rfl rfl⟩

/-! ## Claim C10 — processImmediateTransitions only arms timers -/

theorem armLoop_never_true {D : Type} (dm : DoubleModel D)
    (gctx : GuardCtx D) (vars : List (String × Variable D)) (active : Nat)
    (trigger : String) (now : Int) :
    ∀ (l : List (Nat × Transition D)) (tm : List Timer),
      (armLoop dm gctx vars active trigger now l tm).2 = Except.ok false
      ∨ ∃ e, (armLoop dm gctx vars active trigger now l tm).2
          = Except.error e := by
  intro l
  induction l with
  | nil => intro tm; left; rfl
  | cons p rest ih =>
    intro tm
    obtain ⟨i, t⟩ := p
    by_cases hs : t.src = active
    · cases hT : t.isTriggered trigger gctx with
      | error e =>
        right
        exact ⟨e, by simp [armLoop, hs, hT]⟩
      | ok b =>
        cases b
        · simpa [armLoop, hs, hT] using ih tm
        · simpa [armLoop, hs, hT] using
            ih (schedArm tm now i (armDelay dm vars t))
    · simpa [armLoop, hs] using ih tm

/-- `processImmediateTransitions` returns false whenever it returns at
all; the only other outcome is a propagating guard exception. -/
theorem processImmediate_never_true {D : Type} (dm : DoubleModel D)
    (a : Automaton D) (now : Int) (trigger : String) :
    (processImmediateTransitions dm a now trigger).2 = Except.ok false
    ∨ ∃ e, (processImmediateTransitions dm a now trigger).2
        = Except.error e :=
  armLoop_never_true dm
    { vars := makeVarSnapshot a.vars, inputs := a.inputs } a.vars a.active
    trigger now a.transitions.enum a.timers

/-- The queue-draining phase broadcasts nothing and never changes the
active state. -/
theorem drainInputs_silent {D : Type} (dm : DoubleModel D) (now : Int) :
    ∀ (ins : List (String × String)) (a : Automaton D),
      (drainInputsPhase dm a now ins).2.1 = []
      ∧ (drainInputsPhase dm a now ins).1.active = a.active := by
  intro ins
  induction ins with
  | nil => intro a; exact ⟨rfl, rfl⟩
  | cons nv rest ih =>
    intro a
    obtain ⟨n, v⟩ := nv
    rcases processImmediate_never_true dm
        { a with inputs := updAssoc a.inputs n v } now n with hok | ⟨e, herr⟩
    · have hrec := ih (processImmediateTransitions dm
        { a with inputs := updAssoc a.inputs n v } now n).1
      constructor
      · simp only [drainInputsPhase, hok]
        simpa using hrec.1
      · simp only [drainInputsPhase, hok]
        simpa using hrec.2
    · constructor
      · simp [drainInputsPhase, herr]
      · simp only [drainInputsPhase, herr]
        rfl

/-- Every snapshot a loop iteration emits comes from the expired-timer
phase: the broadcasts guarded by the return value of
`processImmediateTransitions` never execute. -/
theorem runStep_snaps_from_timers {D : Type} (dm : DoubleModel D)
    (a : Automaton D) (it : Iter) :
    (runStep dm a it).2.1 =
      (match (processImmediateTransitions dm a it.now "").2 with
       | .ok _ => (fireExpiredPhase
           (processImmediateTransitions dm a it.now "").1 it.now).2
       | .error _ => []) := by
  rcases processImmediate_never_true dm a it.now "" with hok | ⟨e, herr⟩
  · simp only [runStep, hok]
    simpa using (drainInputs_silent dm it.now it.inputs
      (fireExpiredPhase (processImmediateTransitions dm a it.now "").1 it.now).1).1
  · simp [runStep, herr]

/-- C10: for every trigger and every automaton state,
`processImmediateTransitions` only arms scheduler timers — active state,
event log, variables, inputs, outputs, sequence counter, entry instant,
states and transitions are untouched — and it never returns true (it
returns false, or a guard exception propagates); consequently the
run-loop broadcasts conditioned on its return value never execute: the
queue-draining phase emits no snapshots and preserves the active state,
and every snapshot of a loop iteration comes from a scheduler timer
firing through `fireTransition`. -/
theorem processImmediate_only_arms {D : Type} (dm : DoubleModel D) :
    (∀ (a : Automaton D) (now : Int) (trigger : String),
      (processImmediateTransitions dm a now trigger).1.active = a.active
      ∧ (processImmediateTransitions dm a now trigger).1.log = a.log
      ∧ (processImmediateTransitions dm a now trigger).1.vars = a.vars
      ∧ (processImmediateTransitions dm a now trigger).1.inputs = a.inputs
      ∧ (processImmediateTransitions dm a now trigger).1.outputs = a.outputs
      ∧ (processImmediateTransitions dm a now trigger).1.seq = a.seq
      ∧ (processImmediateTransitions dm a now trigger).1.stateSince = a.stateSince
      ∧ (processImmediateTransitions dm a now trigger).1.states = a.states
      ∧ (processImmediateTransitions dm a now trigger).1.transitions = a.transitions
      ∧ ((processImmediateTransitions dm a now trigger).2 = Except.ok false
         ∨ ∃ e, (processImmediateTransitions dm a now trigger).2 = Except.error e))
    ∧ (∀ (a : Automaton D) (now : Int) (ins : List (String × String)),
        (drainInputsPhase dm a now ins).2.1 = []
        ∧ (drainInputsPhase dm a now ins).1.active = a.active)
    ∧ (∀ (a : Automaton D) (it : Iter),
        (runStep dm a it).2.1 =
          (match (processImmediateTransitions dm a it.now "").2 with
           | .ok _ => (fireExpiredPhase
               (processImmediateTransitions dm a it.now "").1 it.now).2
           | .error _ => [])) :=
  ⟨fun a now trigger =>
    ⟨rfl, rfl, rfl, rfl, rfl, rfl, rfl, rfl, rfl,
     processImmediate_never_true dm a now trigger⟩,
   fun a now ins => drainInputs_silent dm now ins a,
   fun a it => runStep_snaps_from_timers dm a it⟩

/-! ## Claims C6 / C9 — load-time warnings and save/load round trip -/

theorem ok_bind {α β : Type} (a : α) (f : α → Except String β) :
    (Except.ok a >>= f) = f a := rfl

theorem mapM_map_roundtrip {α : Type} (f : α → Json)
    (g : Json → Except String α) (hfg : ∀ x, g (f x) = Except.ok x) :
    ∀ l : List α, (l.map f).mapM g = Except.ok l := by
  intro l
  induction l with
  | nil => rfl
  | cons x xs ih =>
    rw [List.map_cons, List.mapM_cons, hfg x, ok_bind, ih]
    rfl

theorem mapM_pointwise {α β γ : Type} (g1 : α → Except String β)
    (g2 : α → Except String γ) (h : β → γ)
    (hpt : ∀ x y, g1 x = Except.ok y → g2 x = Except.ok (h y)) :
    ∀ (xs : List α) (ys : List β), xs.mapM g1 = Except.ok ys →
      xs.mapM g2 = Except.ok (ys.map h) := by
  intro xs
  induction xs with
  | nil =>
    intro ys hy
    injection hy with hy
    subst hy
    rfl
  | cons x xs ih =>
    intro ys hy
    rw [List.mapM_cons] at hy
    obtain ⟨y, hgx, hy⟩ := except_bind_ok hy
    obtain ⟨ys', hgxs, hy⟩ := except_bind_ok hy
    injection hy with hy
    subst hy
    rw [List.mapM_cons, hpt x y hgx, ok_bind, ih ys' hgxs]
    rfl

theorem variableDesc_roundtrip (v : VariableDesc) :
    VariableDesc.fromJson v.toJson = Except.ok v := rfl

theorem stateDesc_roundtrip (s : StateDesc) :
    StateDesc.fromJson s.toJson = Except.ok s := by
  obtain ⟨id, initial, onEnter⟩ := s
  by_cases hoe : onEnter = ""
  · subst hoe
    cases initial
    · rfl
    · rfl
  · cases initial
    · simp only [StateDesc.toJson, if_neg hoe]
      rfl
    · simp only [StateDesc.toJson, if_neg hoe]
      rfl

theorem transitionDesc_roundtrip (t : TransitionDesc) :
    TransitionDesc.fromJson t.toJson = Except.ok t := by
  obtain ⟨f1, t1, tr1, g1, d1⟩ := t
  by_cases htr : tr1 = ""
  · subst htr
    by_cases hgu : g1 = ""
    · subst hgu
      cases d1 <;> rfl
    · simp only [TransitionDesc.toJson, if_neg hgu]
      cases d1 <;> rfl
  · by_cases hgu : g1 = ""
    · subst hgu
      simp only [TransitionDesc.toJson, if_neg htr]
      cases d1 <;> rfl
    · simp only [TransitionDesc.toJson, if_neg htr, if_neg hgu]
      cases d1 <;> rfl

theorem fsmDocument_roundtrip (d : FsmDocument) :
    FsmDocument.fromJson d.toJson = Except.ok d := by
  obtain ⟨nm, cm, ins, outs, vds, sts, trs⟩ := d
  have hstr : ∀ l : List String, (l.map Json.str).mapM Json.asStr = Except.ok l :=
    mapM_map_roundtrip Json.str Json.asStr (fun _ => rfl)
  have hv := mapM_map_roundtrip VariableDesc.toJson VariableDesc.fromJson
    variableDesc_roundtrip vds
  have hs := mapM_map_roundtrip StateDesc.toJson StateDesc.fromJson
    stateDesc_roundtrip sts
  have ht := mapM_map_roundtrip TransitionDesc.toJson TransitionDesc.fromJson
    transitionDesc_roundtrip trs
  have hstr' : ∀ l : List String,
      List.mapM.loop Json.asStr (l.map Json.str) [] = Except.ok l :=
    fun l => hstr l
  have hv' : List.mapM.loop VariableDesc.fromJson
      (vds.map VariableDesc.toJson) [] = Except.ok vds := hv
  have hs' : List.mapM.loop StateDesc.fromJson
      (sts.map StateDesc.toJson) [] = Except.ok sts := hs
  have ht' : List.mapM.loop TransitionDesc.fromJson
      (trs.map TransitionDesc.toJson) [] = Except.ok trs := ht
  simp [FsmDocument.fromJson, FsmDocument.toJson, Json.nameOrId,
    Json.getStr, Json.getAt, Json.getStrOr, Json.getStrArray, Json.lookup,
    Json.asArr, Json.asStr, List.lookup, ok_bind, hstr', hv', hs', ht']

/-- A successful keyed lookup forces the value to be an object. -/
theorem lookup_some_obj {j : Json} {k : String} {v : Json}
    (h : j.lookup k = some v) : ∃ kvs, j = Json.obj kvs := by
  cases j <;> simp [Json.lookup] at h
  exact ⟨_, rfl⟩

/-- On an object, `value(k, dflt)` and the `contains`/`at` pattern
agree. -/
theorem getStrD_eq_getStrOr (kvs : List (String × Json)) (k d : String) :
    Json.getStrD (.obj kvs) k d = Json.getStrOr (.obj kvs) k d := rfl

/-- A successful `getStr` forces the value to be an object and exposes
the looked-up string. -/
theorem getStr_ok_lookup {j : Json} {k s : String}
    (h : j.getStr k = Except.ok s) :
    j.lookup k = some (Json.str s) := by
  rw [Json.getStr] at h
  obtain ⟨v, hv, hs⟩ := except_bind_ok h
  rw [Json.getAt] at hv
  cases hl : j.lookup k with
  | none => rw [hl] at hv; exact Except.noConfusion hv
  | some v' =>
    rw [hl] at hv
    injection hv with hv
    subst hv
    cases v' <;> simp [Json.asStr] at hs
    subst hs
    rfl

/-- The transition fields the load-time scan reads agree with the mapped
DTO fields. -/
theorem scanTransition_spec (inputs varNames : List String) (j : Json)
    (td : TransitionDesc) (h : TransitionDesc.fromJson j = Except.ok td) :
    scanTransition inputs varNames j
      = Except.ok (transitionWarningsSpec inputs varNames td).head? := by
  rw [TransitionDesc.fromJson] at h
  obtain ⟨f1, hf, h⟩ := except_bind_ok h
  obtain ⟨t1, ht, h⟩ := except_bind_ok h
  obtain ⟨tr, htr, h⟩ := except_bind_ok h
  obtain ⟨gu, hgu, h⟩ := except_bind_ok h
  injection h with h
  subst h
  obtain ⟨kvs, hobj⟩ := lookup_some_obj (getStr_ok_lookup hf)
  subst hobj
  rw [scanTransition]
  rw [getStrD_eq_getStrOr, htr, ok_bind]
  rw [getStrD_eq_getStrOr, hgu, ok_bind]
  by_cases h1 : gu ≠ "" ∧ tr = ""
  · rw [if_pos h1]
    simp [transitionWarningsSpec, h1, hf, ht, ok_bind]
  · rw [if_neg h1]
    by_cases h2 : tr ≠ "" ∧ ¬ inputs.contains tr
    · rw [if_pos h2]
      simp only [transitionWarningsSpec]
      rw [if_neg h1, if_pos h2]
      simp [hf, ht, ok_bind]
    · rw [if_neg h2]
      simp only [transitionWarningsSpec]
      rw [if_neg h1, if_neg h2]
      cases hfv : firstValueof gu with
      | none => rfl
      | some sym =>
        by_cases h3 : sym ∉ inputs ∧ sym ∉ varNames
        · simp [h3, hf, ht, ok_bind]
        · simp [h3, hf, ht, ok_bind]
          rfl

/-- The scan loop reports exactly the first warning of the
spec-side enumeration. -/
theorem scanTransitions_spec (inputs varNames : List String) :
    ∀ (js : List Json) (tds : List TransitionDesc),
      js.mapM TransitionDesc.fromJson = Except.ok tds →
      scanTransitions inputs varNames js
        = Except.ok
            ((tds.map (transitionWarningsSpec inputs varNames)).flatten).head? := by
  intro js
  induction js with
  | nil =>
    intro tds h
    injection h with h
    subst h
    rfl
  | cons j rest ih =>
    intro tds h
    rw [List.mapM_cons] at h
    obtain ⟨td, htd, h⟩ := except_bind_ok h
    obtain ⟨tds', htds, h⟩ := except_bind_ok h
    injection h with h
    subst h
    rw [scanTransitions]
    rw [scanTransition_spec inputs varNames j td htd, ok_bind]
    cases hl : transitionWarningsSpec inputs varNames td with
    | nil =>
      simp only [hl, List.map_cons, List.flatten_cons, List.nil_append,
        List.head?_nil]
      exact ih tds' htds
    | cons w ws =>
      simp only [hl, List.map_cons, List.flatten_cons, List.cons_append,
        List.head?_cons]
      rfl
/-- The variable name the scan reads agrees with the mapped DTO field. -/
theorem variableDesc_name_agrees {j : Json} {vd : VariableDesc}
    (h : VariableDesc.fromJson j = Except.ok vd) :
    j.getStr "name" = Except.ok vd.name := by
  rw [VariableDesc.fromJson] at h
  obtain ⟨nm, h1, h⟩ := except_bind_ok h
  obtain ⟨ty, h2, h⟩ := except_bind_ok h
  obtain ⟨ini, h3, h⟩ := except_bind_ok h
  injection h with h
  subst h
  exact h1

/-- A successful `getAt` exposes the looked-up value. -/
theorem getAt_ok_lookup {j v : Json} {k : String}
    (h : j.getAt k = Except.ok v) : j.lookup k = some v := by
  rw [Json.getAt] at h
  cases hl : j.lookup k with
  | none => rw [hl] at h; exact Except.noConfusion h
  | some v' =>
    rw [hl] at h
    injection h with h
    rw [h]

/-- A successful `asArr` forces an array value. -/
theorem asArr_ok {v : Json} {xs : List Json}
    (h : v.asArr = Except.ok xs) : v = Json.arr xs := by
  cases v with
  | null => exact Except.noConfusion h
  | bool b => exact Except.noConfusion h
  | num n => exact Except.noConfusion h
  | str s => exact Except.noConfusion h
  | arr ys => injection h with h; rw [h]
  | obj kvs => exact Except.noConfusion h

/-- Core of claims C6 and C9: whenever the JSON maps to the DTO, the
whole of `loadFile` succeeds, returns that DTO, and delivers through the
`err` out-parameter exactly the first warning of the spec-side ordered
enumeration. -/
theorem loadFile_of_fromJson {j : Json} {d : FsmDocument}
    (h : FsmDocument.fromJson j = Except.ok d) :
    loadFile j = LoadResult.ok d (firstWarningSpec d) := by
  have h0 := h
  rw [FsmDocument.fromJson] at h
  obtain ⟨nm, h1, h⟩ := except_bind_ok h
  obtain ⟨cm, h2, h⟩ := except_bind_ok h
  obtain ⟨ins, h3, h⟩ := except_bind_ok h
  obtain ⟨outs, h4, h⟩ := except_bind_ok h
  obtain ⟨varsJ, h5, h⟩ := except_bind_ok h
  obtain ⟨vds, h6, h⟩ := except_bind_ok h
  obtain ⟨stJ, h7, h⟩ := except_bind_ok h
  obtain ⟨sts, h8, h⟩ := except_bind_ok h
  obtain ⟨trJ, h9, h⟩ := except_bind_ok h
  obtain ⟨trs, h10, h⟩ := except_bind_ok h
  injection h with h
  subst h
  obtain ⟨vJ, hvJ, hvArr⟩ := except_bind_ok h5
  have hlookV : j.lookup "variables" = some (Json.arr varsJ) := by
    have := getAt_ok_lookup hvJ
    rw [asArr_ok hvArr] at this
    exact this
  obtain ⟨tJ, htJ, htArr⟩ := except_bind_ok h9
  have hlookT : j.lookup "transitions" = some (Json.arr trJ) := by
    have := getAt_ok_lookup htJ
    rw [asArr_ok htArr] at this
    exact this
  have hnames : varsJ.mapM (fun v => v.getStr "name")
      = Except.ok (vds.map VariableDesc.name) :=
    mapM_pointwise VariableDesc.fromJson (fun v => v.getStr "name")
      VariableDesc.name (fun x y hxy => variableDesc_name_agrees hxy)
      varsJ vds h6
  have hnames' : List.mapM.loop (fun v => v.getStr "name") varsJ []
      = Except.ok (vds.map VariableDesc.name) := hnames
  have hscan : loadScan j
      = Except.ok
          ((trs.map (transitionWarningsSpec ins (vds.map VariableDesc.name))).flatten).head? := by
    rw [loadScan]
    rw [h3, ok_bind, hlookV, hlookT]
    simp only [Json.iterElems]
    rw [hnames, ok_bind]
    exact scanTransitions_spec ins (vds.map VariableDesc.name) trJ trs h10
  rw [loadFile, hscan, h0]
  rfl

/-- C6: for every document whose JSON maps to the DTO, `loadFile` scans
the transitions in document order, checks each in the order
guard-without-trigger, unknown trigger, unknown `valueof` symbol, reports
(through `err`) only the first warning found, and still returns true with
the fully populated document. -/
theorem loadFile_first_warning {j : Json} {d : FsmDocument}
    (h : FsmDocument.fromJson j = Except.ok d) :
    loadFile j = LoadResult.ok d (firstWarningSpec d) :=
  loadFile_of_fromJson h

/-- A concrete document whose second transition has an unknown trigger
and whose third transition has a guard without a trigger: only the first
warning in scan order is reported. -/
def jsonWarnDoc : Json :=
  .obj [("name", .str "M"), ("comment", .str ""),
        ("inputs", .arr [.str "go"]), ("outputs", .arr []),
        ("variables", .arr []),
        ("states", .arr [.obj [("id", .str "A"), ("initial", .bool true)],
                         .obj [("id", .str "B")]]),
        ("transitions", .arr
          [.obj [("from", .str "A"), ("to", .str "B"),
                 ("trigger", .str "go")],
           .obj [("from", .str "A"), ("to", .str "B"),
                 ("trigger", .str "foo")],
           .obj [("from", .str "B"), ("to", .str "A"),
                 ("guard", .str "valueof(\"x\") == \"1\"")]])]

/-- The DTO `jsonWarnDoc` maps to. -/
def warnDoc : FsmDocument :=
  { name := "M", comment := "", inputs := ["go"], outputs := [],
    varDescs := [],
    states := [{ id := "A", initial := true, onEnter := "" },
               { id := "B", initial := false, onEnter := "" }],
    transitions :=
      [{ fromId := "A", toId := "B", trigger := "go", guard := "",
         delay_ms := .null },
       { fromId := "A", toId := "B", trigger := "foo", guard := "",
         delay_ms := .null },
       { fromId := "B", toId := "A", trigger := "", guard := "valueof(\"x\") == \"1\"",
         delay_ms := .null }] }

/-- Witness for C6 at a concrete input: the unknown trigger of the
second transition is reported, not the guard-without-trigger of the
third. -/
theorem loadFile_first_warning_witness :
    FsmDocument.fromJson jsonWarnDoc = Except.ok warnDoc
    ∧ loadFile jsonWarnDoc = LoadResult.ok warnDoc (firstWarningSpec warnDoc)
    ∧ firstWarningSpec warnDoc = some (Warning.unknownTrigger "foo" "A" "B") :=
  ⟨rfl, loadFile_first_warning rfl, rfl⟩

/-- C9: saving any DTO and loading the result succeeds and yields an
identical DTO — the elision of default fields on save is inverted exactly
by the defaults applied on load, and load warnings are advisory, not
mutating.  (File I/O and JSON text round-tripping, which nlohmann
guarantees, are modelled at the JSON-value level.) -/
theorem saveFile_loadFile_roundtrip (d : FsmDocument) :
    ∃ w, loadFile (FsmDocument.toJson d) = LoadResult.ok d w :=
  ⟨firstWarningSpec d, loadFile_of_fromJson (fsmDocument_roundtrip d)⟩

end CoreFsm
